import Mathlib

/-!
Verification of the position/risk calculator of the `my-btc-trade-system`
trading bot.  The repository ships the calculator's documentation
(`buy_sell_notify/BUG_FIX_SUMMARY.md`, which quotes the core formulas of
`calculate_position_details`) but not the implementation file
(`core/risk/position_calculator.py`) itself, so the operation
`compute_position_plan` is modelled from the specification, using exact
rational arithmetic in place of the implementation's floating point.
-/

namespace RiskCalc

/-- Modelled from the spec: the two-variant enumerated trade direction
(`TradeDirection`: LONG or SHORT), replacing the source's dynamic dispatch
between "long" and "short" string branches. -/
inductive TradeDirection where
  | long : TradeDirection
  | short : TradeDirection
deriving DecidableEq, Repr

/-- Modelled from the spec: `MarketSnapshot` with a positive entry price and a
non-negative ATR volatility value. -/
structure MarketSnapshot where
  entry_price : ℚ
  atr_value : ℚ
deriving DecidableEq, Repr

/-- Modelled from the spec: `RiskConfig` with the ATR multiplier, the fraction
of the balance risked per trade, and the ordered reward multiples. -/
structure RiskConfig where
  atr_multiplier : ℚ
  risk_per_trade_fraction : ℚ
  reward_multiples : List ℚ
deriving DecidableEq, Repr

/-- Modelled from the spec: `AccountState` holding the non-negative balance. -/
structure AccountState where
  balance : ℚ
deriving DecidableEq, Repr

/-- Modelled from the spec: the immutable `PositionPlan` output record.
`realized_risk_multiple` is `none` when it is undefined (zero ATR), and
`degenerate_risk` is the `DegenerateRisk` flag for a zero stop distance. -/
structure PositionPlan where
  entry_price : ℚ
  stop_loss_price : ℚ
  stop_loss_distance : ℚ
  position_size : ℚ
  risk_amount : ℚ
  target_prices : List ℚ
  realized_risk_multiple : Option ℚ
  degenerate_risk : Bool
deriving DecidableEq, Repr

/-- Modelled from the spec: the error taxonomy of the calculator.
`InvalidParameter` names the offending input field; `InternalInvariantViolation`
is the failed postcondition self-check. -/
inductive ComputeError where
  | InvalidParameter : String → ComputeError
  | InternalInvariantViolation : ComputeError
deriving DecidableEq, Repr

/-- Modelled from the spec: precondition validation.  Returns `some field` with
the name of the first out-of-domain input field, or `none` when every
precondition holds (entry_price > 0, atr_value ≥ 0, atr_multiplier > 0,
risk_per_trade_fraction ∈ (0,1], reward_multiples non-empty with every element
positive, balance ≥ 0). -/
def validateInputs (m : MarketSnapshot) (cfg : RiskConfig) (a : AccountState) :
    Option String :=
  if ¬ 0 < m.entry_price then some "entry_price"
  else if m.atr_value < 0 then some "atr_value"
  else if ¬ 0 < cfg.atr_multiplier then some "atr_multiplier"
  else if ¬ (0 < cfg.risk_per_trade_fraction ∧ cfg.risk_per_trade_fraction ≤ 1) then
    some "risk_per_trade_fraction"
  else if cfg.reward_multiples.isEmpty then some "reward_multiples"
  else if cfg.reward_multiples.any (fun r => decide (r ≤ 0)) then some "reward_multiples"
  else if a.balance < 0 then some "balance"
  else none

/-- The spec's validity domain for `compute_position_plan`, as a predicate. -/
def ValidInput (m : MarketSnapshot) (cfg : RiskConfig) (a : AccountState) : Prop :=
  0 < m.entry_price ∧ 0 ≤ m.atr_value ∧ 0 < cfg.atr_multiplier ∧
  0 < cfg.risk_per_trade_fraction ∧ cfg.risk_per_trade_fraction ≤ 1 ∧
  cfg.reward_multiples ≠ [] ∧ (∀ r ∈ cfg.reward_multiples, 0 < r) ∧
  0 ≤ a.balance

instance (m : MarketSnapshot) (cfg : RiskConfig) (a : AccountState) :
    Decidable (ValidInput m cfg a) := by
  unfold ValidInput; infer_instance

/-- Modelled from the spec: the sign of the trade direction used for target
prices, +1 for LONG and −1 for SHORT. -/
def directionSign : TradeDirection → ℚ
  | TradeDirection.long => 1
  | TradeDirection.short => -1

/-- Modelled from the spec: the stop-loss price formula, an exhaustive match on
the two-variant direction: entry − distance for LONG, entry + distance for
SHORT. -/
def stopLossPriceFor : TradeDirection → ℚ → ℚ → ℚ
  | TradeDirection.long, entry, dist => entry - dist
  | TradeDirection.short, entry, dist => entry + dist

/-- Modelled from the spec: construction of the `PositionPlan` from validated
inputs (steps 1–6 of the algorithm in §4.1). -/
def buildPlan (d : TradeDirection) (m : MarketSnapshot) (cfg : RiskConfig)
    (a : AccountState) : PositionPlan :=
  let sld := m.atr_value * cfg.atr_multiplier
  let riskAmt := a.balance * cfg.risk_per_trade_fraction
  { entry_price := m.entry_price
    stop_loss_price := stopLossPriceFor d m.entry_price sld
    stop_loss_distance := sld
    position_size := if sld = 0 then 0 else riskAmt / sld
    risk_amount := riskAmt
    target_prices := cfg.reward_multiples.map
      (fun r => m.entry_price + directionSign d * sld * r)
    realized_risk_multiple :=
      if 0 < m.atr_value then some (sld / m.atr_value) else none
    degenerate_risk := decide (m.atr_value = 0) }

/-- Modelled from the spec: the postcondition self-check.  When the recomputed
`realized_risk_multiple` is defined, it must equal the configured
`atr_multiplier` within relative tolerance 1e-4. -/
def selfCheckOk (cfg : RiskConfig) (plan : PositionPlan) : Bool :=
  match plan.realized_risk_multiple with
  | none => true
  | some r => decide (|r - cfg.atr_multiplier| ≤ 1 / 10000 * |cfg.atr_multiplier|)

/-- Modelled from the spec: the final step of the operation.  If the
postcondition self-check fails, raise `InternalInvariantViolation` and return
no plan; otherwise return the complete plan. -/
def finalizePlan (cfg : RiskConfig) (plan : PositionPlan) :
    Except ComputeError PositionPlan :=
  if selfCheckOk cfg plan then Except.ok plan
  else Except.error ComputeError.InternalInvariantViolation

/-- Modelled from the spec: `compute_position_plan(direction, market,
risk_config, account)` — validate the inputs, build the plan, run the
postcondition self-check. -/
def compute_position_plan (d : TradeDirection) (m : MarketSnapshot)
    (cfg : RiskConfig) (a : AccountState) : Except ComputeError PositionPlan :=
  match validateInputs m cfg a with
  | some field => Except.error (ComputeError.InvalidParameter field)
  | none => finalizePlan cfg (buildPlan d m cfg a)

/-- A field name together with the precondition it violates, used to state that
`InvalidParameter` identifies an actually offending field. -/
def fieldInvalid (f : String) (m : MarketSnapshot) (cfg : RiskConfig)
    (a : AccountState) : Prop :=
  (f = "entry_price" ∧ ¬ 0 < m.entry_price) ∨
  (f = "atr_value" ∧ m.atr_value < 0) ∨
  (f = "atr_multiplier" ∧ ¬ 0 < cfg.atr_multiplier) ∨
  (f = "risk_per_trade_fraction" ∧
    ¬ (0 < cfg.risk_per_trade_fraction ∧ cfg.risk_per_trade_fraction ≤ 1)) ∨
  (f = "reward_multiples" ∧ (cfg.reward_multiples = [] ∨ ∃ r ∈ cfg.reward_multiples, r ≤ 0)) ∨
  (f = "balance" ∧ a.balance < 0)

/-! ### Helper lemmas -/

/-- Validation accepts every input in the spec's validity domain. -/
theorem validateInputs_of_valid (m : MarketSnapshot) (cfg : RiskConfig)
    (a : AccountState) (h : ValidInput m cfg a) : validateInputs m cfg a = none := by
  obtain ⟨h1, h2, h3, h4, h5, h6, h7, h8⟩ := h
  have hA : ¬ cfg.reward_multiples.isEmpty = true := fun hc =>
    h6 (List.isEmpty_iff.mp hc)
  have hB : ¬ cfg.reward_multiples.any (fun r => decide (r ≤ 0)) = true := by
    intro hc
    obtain ⟨r, hr, hr2⟩ := List.any_eq_true.mp hc
    exact absurd (h7 r hr) (not_lt.mpr (of_decide_eq_true hr2))
  unfold validateInputs
  rw [if_neg (not_not_intro h1), if_neg (not_lt.mpr h2), if_neg (not_not_intro h3),
    if_neg (not_not_intro ⟨h4, h5⟩), if_neg hA, if_neg hB, if_neg (not_lt.mpr h8)]

/-- Validation rejects only inputs outside the spec's validity domain. -/
theorem valid_of_validateInputs_eq_none (m : MarketSnapshot) (cfg : RiskConfig)
    (a : AccountState) (h : validateInputs m cfg a = none) : ValidInput m cfg a := by
  unfold validateInputs at h
  by_cases c1 : ¬ 0 < m.entry_price
  · rw [if_pos c1] at h; exact absurd h (by simp)
  rw [if_neg c1] at h
  by_cases c2 : m.atr_value < 0
  · rw [if_pos c2] at h; exact absurd h (by simp)
  rw [if_neg c2] at h
  by_cases c3 : ¬ 0 < cfg.atr_multiplier
  · rw [if_pos c3] at h; exact absurd h (by simp)
  rw [if_neg c3] at h
  by_cases c4 : ¬ (0 < cfg.risk_per_trade_fraction ∧ cfg.risk_per_trade_fraction ≤ 1)
  · rw [if_pos c4] at h; exact absurd h (by simp)
  rw [if_neg c4] at h
  by_cases c5 : cfg.reward_multiples.isEmpty = true
  · rw [if_pos c5] at h; exact absurd h (by simp)
  rw [if_neg c5] at h
  by_cases c6 : cfg.reward_multiples.any (fun r => decide (r ≤ 0)) = true
  · rw [if_pos c6] at h; exact absurd h (by simp)
  rw [if_neg c6] at h
  by_cases c7 : a.balance < 0
  · rw [if_pos c7] at h; exact absurd h (by simp)
  push_neg at c1 c3 c4
  refine ⟨c1, not_lt.mp c2, c3, c4.1, c4.2, ?_, ?_, not_lt.mp c7⟩
  · intro hnil
    exact c5 (by simp [hnil])
  · intro r hr
    by_contra hle
    exact c6 (List.any_eq_true.mpr ⟨r, hr, decide_eq_true (not_lt.mp hle)⟩)

/-- When validation names a field, that field really violates its
precondition. -/
theorem validateInputs_names_bad_field (m : MarketSnapshot) (cfg : RiskConfig)
    (a : AccountState) (f : String) (h : validateInputs m cfg a = some f) :
    fieldInvalid f m cfg a := by
  unfold validateInputs at h
  by_cases c1 : ¬ 0 < m.entry_price
  · rw [if_pos c1] at h
    obtain rfl := Option.some.inj h
    exact Or.inl ⟨rfl, c1⟩
  rw [if_neg c1] at h
  by_cases c2 : m.atr_value < 0
  · rw [if_pos c2] at h
    obtain rfl := Option.some.inj h
    exact Or.inr (Or.inl ⟨rfl, c2⟩)
  rw [if_neg c2] at h
  by_cases c3 : ¬ 0 < cfg.atr_multiplier
  · rw [if_pos c3] at h
    obtain rfl := Option.some.inj h
    exact Or.inr (Or.inr (Or.inl ⟨rfl, c3⟩))
  rw [if_neg c3] at h
  by_cases c4 : ¬ (0 < cfg.risk_per_trade_fraction ∧ cfg.risk_per_trade_fraction ≤ 1)
  · rw [if_pos c4] at h
    obtain rfl := Option.some.inj h
    exact Or.inr (Or.inr (Or.inr (Or.inl ⟨rfl, c4⟩)))
  rw [if_neg c4] at h
  by_cases c5 : cfg.reward_multiples.isEmpty = true
  · rw [if_pos c5] at h
    obtain rfl := Option.some.inj h
    exact Or.inr (Or.inr (Or.inr (Or.inr (Or.inl
      ⟨rfl, Or.inl (List.isEmpty_iff.mp c5)⟩))))
  rw [if_neg c5] at h
  by_cases c6 : cfg.reward_multiples.any (fun r => decide (r ≤ 0)) = true
  · rw [if_pos c6] at h
    obtain rfl := Option.some.inj h
    obtain ⟨r, hr, hr2⟩ := List.any_eq_true.mp c6
    exact Or.inr (Or.inr (Or.inr (Or.inr (Or.inl
      ⟨rfl, Or.inr ⟨r, hr, of_decide_eq_true hr2⟩⟩))))
  rw [if_neg c6] at h
  by_cases c7 : a.balance < 0
  · rw [if_pos c7] at h
    obtain rfl := Option.some.inj h
    exact Or.inr (Or.inr (Or.inr (Or.inr (Or.inr ⟨rfl, c7⟩))))
  rw [if_neg c7] at h
  exact absurd h (by simp)

/-- The postcondition self-check always passes on a plan freshly built by
`buildPlan`, because the recomputed risk multiple is exactly the configured
multiplier (or undefined when the ATR is zero). -/
theorem selfCheckOk_buildPlan (d : TradeDirection) (m : MarketSnapshot)
    (cfg : RiskConfig) (a : AccountState) (hm : 0 ≤ m.atr_value) :
    selfCheckOk cfg (buildPlan d m cfg a) = true := by
  rcases eq_or_lt_of_le hm with h0 | hpos
  · simp [selfCheckOk, buildPlan, ← h0]
  · have hne : m.atr_value ≠ 0 := ne_of_gt hpos
    simp only [selfCheckOk, buildPlan, if_pos hpos]
    rw [decide_eq_true_eq, mul_div_cancel_left₀ _ hne, sub_self, abs_zero]
    positivity

/-- On the validity domain the operation succeeds and returns exactly the plan
built by `buildPlan`. -/
theorem compute_position_plan_of_valid (d : TradeDirection) (m : MarketSnapshot)
    (cfg : RiskConfig) (a : AccountState) (h : ValidInput m cfg a) :
    compute_position_plan d m cfg a = Except.ok (buildPlan d m cfg a) := by
  unfold compute_position_plan
  rw [validateInputs_of_valid m cfg a h]
  unfold finalizePlan
  rw [if_pos (selfCheckOk_buildPlan d m cfg a h.2.1)]

/-- The `InternalInvariantViolation` branch is unreachable: on every input the
operation either rejects a parameter or succeeds. -/
theorem compute_position_plan_ne_violation (d : TradeDirection)
    (m : MarketSnapshot) (cfg : RiskConfig) (a : AccountState) :
    compute_position_plan d m cfg a ≠
      Except.error ComputeError.InternalInvariantViolation := by
  unfold compute_position_plan
  cases hv : validateInputs m cfg a with
  | some f => simp
  | none =>
    have hvalid := valid_of_validateInputs_eq_none m cfg a hv
    unfold finalizePlan
    rw [if_pos (selfCheckOk_buildPlan d m cfg a hvalid.2.1)]
    simp

/-! ### Claim theorems -/

/-- Claim C1: for every valid input, `compute_position_plan` returns a plan
whose `stop_loss_distance` equals `atr_value * atr_multiplier` (exactly in the
rational model, hence within 1e-6 relative error). -/
theorem spec_C1 (d : TradeDirection) (m : MarketSnapshot) (cfg : RiskConfig)
    (a : AccountState) (h : ValidInput m cfg a) :
    ∃ plan, compute_position_plan d m cfg a = Except.ok plan ∧
      plan.stop_loss_distance = m.atr_value * cfg.atr_multiplier :=
  ⟨buildPlan d m cfg a, compute_position_plan_of_valid d m cfg a h, rfl⟩

/-- Witness for C1 at the concrete valid input entry 100, ATR 10,
multiplier 2, fraction 1, reward multiples [2, 3], balance 1000. -/
theorem spec_C1_witness :
    ∃ plan, compute_position_plan TradeDirection.long ⟨100, 10⟩ ⟨2, 1, [2, 3]⟩
        ⟨1000⟩ = Except.ok plan ∧
      plan.stop_loss_distance = (10 : ℚ) * 2 :=
  spec_C1 TradeDirection.long ⟨100, 10⟩ ⟨2, 1, [2, 3]⟩ ⟨1000⟩ (by simp [ValidInput])

/-- Claim C2: whenever the postcondition self-check on the recomputed risk
multiple fails (it is not within relative tolerance 1e-4 of the configured
multiplier), the finalization step of `compute_position_plan` raises
`InternalInvariantViolation` and returns no plan. -/
theorem spec_C2 (cfg : RiskConfig) (plan : PositionPlan)
    (h : selfCheckOk cfg plan = false) :
    finalizePlan cfg plan = Except.error ComputeError.InternalInvariantViolation ∧
    ∀ p, finalizePlan cfg plan ≠ Except.ok p := by
  unfold finalizePlan
  rw [h]
  exact ⟨rfl, fun p hp => by simp at hp⟩

/-- Witness for C2 at a concrete plan whose recomputed risk multiple 1 differs
from the configured multiplier 2 by far more than the tolerance. -/
theorem spec_C2_witness :
    finalizePlan ⟨2, 1, [2]⟩ ⟨100, 90, 10, 1, 10, [120], some 1, false⟩ =
      Except.error ComputeError.InternalInvariantViolation ∧
    ∀ p, finalizePlan ⟨2, 1, [2]⟩ ⟨100, 90, 10, 1, 10, [120], some 1, false⟩ ≠
      Except.ok p :=
  spec_C2 ⟨2, 1, [2]⟩ ⟨100, 90, 10, 1, 10, [120], some 1, false⟩ (by
    norm_num [selfCheckOk])

/-- Counterexample to C3 as stated: at the valid input with `atr_value = 0`
(valid inputs only require `atr_value ≥ 0`), the LONG stop-loss price equals
the entry price, so it is not strictly below it. -/
theorem spec_C3_counterexample :
    ∃ plan, compute_position_plan TradeDirection.long ⟨100, 0⟩ ⟨2, 1, [2]⟩
        ⟨1000⟩ = Except.ok plan ∧
      ¬ plan.stop_loss_price < (100 : ℚ) := by
  refine ⟨buildPlan TradeDirection.long ⟨100, 0⟩ ⟨2, 1, [2]⟩ ⟨1000⟩,
    compute_position_plan_of_valid TradeDirection.long ⟨100, 0⟩ ⟨2, 1, [2]⟩
      ⟨1000⟩ (by simp [ValidInput]), ?_⟩
  norm_num [buildPlan, stopLossPriceFor]

/-- Claim C3 (amended to inputs with `atr_value > 0`): for LONG the stop-loss
price is strictly below the entry price, for SHORT strictly above it. -/
theorem spec_C3 (d : TradeDirection) (m : MarketSnapshot) (cfg : RiskConfig)
    (a : AccountState) (h : ValidInput m cfg a) (hatr : 0 < m.atr_value) :
    ∃ plan, compute_position_plan d m cfg a = Except.ok plan ∧
      (d = TradeDirection.long → plan.stop_loss_price < m.entry_price) ∧
      (d = TradeDirection.short → m.entry_price < plan.stop_loss_price) := by
  have hsld : 0 < m.atr_value * cfg.atr_multiplier := mul_pos hatr h.2.2.1
  refine ⟨buildPlan d m cfg a, compute_position_plan_of_valid d m cfg a h, ?_, ?_⟩
  · rintro rfl
    show stopLossPriceFor TradeDirection.long m.entry_price
      (m.atr_value * cfg.atr_multiplier) < m.entry_price
    simp only [stopLossPriceFor]
    linarith
  · rintro rfl
    show m.entry_price < stopLossPriceFor TradeDirection.short m.entry_price
      (m.atr_value * cfg.atr_multiplier)
    simp only [stopLossPriceFor]
    linarith

/-- Witness for C3 (amended) at a concrete SHORT input with positive ATR. -/
theorem spec_C3_witness :
    ∃ plan, compute_position_plan TradeDirection.short ⟨100, 10⟩ ⟨2, 1, [2, 3]⟩
        ⟨1000⟩ = Except.ok plan ∧
      (TradeDirection.short = TradeDirection.long →
        plan.stop_loss_price < (100 : ℚ)) ∧
      (TradeDirection.short = TradeDirection.short →
        (100 : ℚ) < plan.stop_loss_price) :=
  spec_C3 TradeDirection.short ⟨100, 10⟩ ⟨2, 1, [2, 3]⟩ ⟨1000⟩
    (by simp [ValidInput]) (by norm_num)

/-- Claim C4: for every valid input with positive ATR, the position size is
`risk_amount / stop_loss_distance` and `position_size * stop_loss_distance`
equals `balance * risk_per_trade_fraction` (exactly in the rational model,
hence within 1e-4 relative error). -/
theorem spec_C4 (d : TradeDirection) (m : MarketSnapshot) (cfg : RiskConfig)
    (a : AccountState) (h : ValidInput m cfg a) (hatr : 0 < m.atr_value) :
    ∃ plan, compute_position_plan d m cfg a = Except.ok plan ∧
      plan.position_size = plan.risk_amount / plan.stop_loss_distance ∧
      plan.position_size * plan.stop_loss_distance =
        a.balance * cfg.risk_per_trade_fraction := by
  have hsld : m.atr_value * cfg.atr_multiplier ≠ 0 :=
    ne_of_gt (mul_pos hatr h.2.2.1)
  have hps : (buildPlan d m cfg a).position_size =
      a.balance * cfg.risk_per_trade_fraction /
        (m.atr_value * cfg.atr_multiplier) := by
    simp only [buildPlan]
    rw [if_neg hsld]
  refine ⟨buildPlan d m cfg a, compute_position_plan_of_valid d m cfg a h, ?_, ?_⟩
  · rw [hps]; rfl
  · rw [hps]
    exact div_mul_cancel₀ _ hsld

/-- Witness for C4 at the concrete input entry 100, ATR 10, multiplier 2,
fraction 1, balance 1000 (position size 50, stop distance 20). -/
theorem spec_C4_witness :
    ∃ plan, compute_position_plan TradeDirection.long ⟨100, 10⟩ ⟨2, 1, [2, 3]⟩
        ⟨1000⟩ = Except.ok plan ∧
      plan.position_size = plan.risk_amount / plan.stop_loss_distance ∧
      plan.position_size * plan.stop_loss_distance = (1000 : ℚ) * 1 :=
  spec_C4 TradeDirection.long ⟨100, 10⟩ ⟨2, 1, [2, 3]⟩ ⟨1000⟩
    (by simp [ValidInput]) (by norm_num)

/-- Claim C5: the regression scenario from the documented defect.  For
direction SHORT, entry 114114.8000, ATR 4930.0529, multiplier 1.8,
balance 10000, fraction 0.01 (reward multiples [2, 3]), the plan has
stop-loss distance within 0.001 of 8874.0952, stop-loss price within 0.001 of
122988.8952, and realized risk multiple exactly 1.8 (which is not 1.0). -/
theorem spec_C5 :
    ∃ plan, compute_position_plan TradeDirection.short
        ⟨1141148 / 10, 49300529 / 10000⟩ ⟨9 / 5, 1 / 100, [2, 3]⟩ ⟨10000⟩ =
        Except.ok plan ∧
      |plan.stop_loss_distance - 88740952 / 10000| ≤ 1 / 1000 ∧
      |plan.stop_loss_price - 1229888952 / 10000| ≤ 1 / 1000 ∧
      plan.realized_risk_multiple = some (9 / 5) ∧ (9 / 5 : ℚ) ≠ 1 := by
  have hvalid : ValidInput ⟨1141148 / 10, 49300529 / 10000⟩
      ⟨9 / 5, 1 / 100, [2, 3]⟩ ⟨10000⟩ := by
    refine ⟨by norm_num, by norm_num, by norm_num, by norm_num, by norm_num,
      by simp, ?_, by norm_num⟩
    intro r hr
    simp only [List.mem_cons, List.not_mem_nil, or_false] at hr
    rcases hr with rfl | rfl <;> norm_num
  refine ⟨buildPlan TradeDirection.short ⟨1141148 / 10, 49300529 / 10000⟩
      ⟨9 / 5, 1 / 100, [2, 3]⟩ ⟨10000⟩,
    compute_position_plan_of_valid _ _ _ _ hvalid, ?_, ?_, ?_, by norm_num⟩
  · norm_num [buildPlan, abs_le]
  · norm_num [buildPlan, stopLossPriceFor, abs_le]
  · norm_num [buildPlan]

/-- Claim C6: for every input that is valid and has `atr_value = 0`, the
operation does not fail: it returns a plan with `position_size = 0` and the
`DegenerateRisk` flag set. -/
theorem spec_C6 (d : TradeDirection) (m : MarketSnapshot) (cfg : RiskConfig)
    (a : AccountState) (h : ValidInput m cfg a) (h0 : m.atr_value = 0) :
    ∃ plan, compute_position_plan d m cfg a = Except.ok plan ∧
      plan.position_size = 0 ∧ plan.degenerate_risk = true := by
  refine ⟨buildPlan d m cfg a, compute_position_plan_of_valid d m cfg a h, ?_, ?_⟩
  · simp [buildPlan, h0]
  · simp [buildPlan, h0]

/-- Witness for C6 at a concrete zero-ATR input. -/
theorem spec_C6_witness :
    ∃ plan, compute_position_plan TradeDirection.long ⟨100, 0⟩ ⟨2, 1, [2, 3]⟩
        ⟨1000⟩ = Except.ok plan ∧
      plan.position_size = 0 ∧ plan.degenerate_risk = true :=
  spec_C6 TradeDirection.long ⟨100, 0⟩ ⟨2, 1, [2, 3]⟩ ⟨1000⟩
    (by simp [ValidInput]) rfl

/-- Claim C7: every input violating a precondition is rejected with an
`InvalidParameter` error that names an actually offending field, and no plan
is returned; the empty `reward_multiples` list in particular is rejected. -/
theorem spec_C7 (d : TradeDirection) (m : MarketSnapshot) (cfg : RiskConfig)
    (a : AccountState) (h : ¬ ValidInput m cfg a) :
    ∃ f, compute_position_plan d m cfg a =
        Except.error (ComputeError.InvalidParameter f) ∧
      fieldInvalid f m cfg a := by
  cases hv : validateInputs m cfg a with
  | none => exact absurd (valid_of_validateInputs_eq_none m cfg a hv) h
  | some f =>
    refine ⟨f, ?_, validateInputs_names_bad_field m cfg a f hv⟩
    unfold compute_position_plan
    rw [hv]

/-- Witness for C7 at the input with `reward_multiples = []` and all other
fields in range. -/
theorem spec_C7_witness :
    ∃ f, compute_position_plan TradeDirection.long ⟨100, 10⟩ ⟨2, 1, []⟩ ⟨1000⟩ =
        Except.error (ComputeError.InvalidParameter f) ∧
      fieldInvalid f ⟨100, 10⟩ ⟨2, 1, []⟩ ⟨1000⟩ :=
  spec_C7 TradeDirection.long ⟨100, 10⟩ ⟨2, 1, []⟩ ⟨1000⟩ (by simp [ValidInput])

/-- Claim C8: for every valid input the target prices are exactly the reward
multiples mapped through `entry_price + sign * stop_loss_distance * multiple`
(hence of equal length, with the stated formula at every index), and whenever
the stop distance is positive every target lies strictly beyond the entry
price in the trade's direction. -/
theorem spec_C8 (d : TradeDirection) (m : MarketSnapshot) (cfg : RiskConfig)
    (a : AccountState) (h : ValidInput m cfg a) :
    ∃ plan, compute_position_plan d m cfg a = Except.ok plan ∧
      plan.target_prices = cfg.reward_multiples.map
        (fun r => m.entry_price + directionSign d * plan.stop_loss_distance * r) ∧
      (0 < plan.stop_loss_distance → ∀ p ∈ plan.target_prices,
        (d = TradeDirection.long → m.entry_price < p) ∧
        (d = TradeDirection.short → p < m.entry_price)) := by
  refine ⟨buildPlan d m cfg a, compute_position_plan_of_valid d m cfg a h, rfl, ?_⟩
  intro hsld p hp
  have hsld2 : 0 < m.atr_value * cfg.atr_multiplier := hsld
  obtain ⟨r, hr, rfl⟩ := List.mem_map.mp hp
  have hr2 : 0 < r := h.2.2.2.2.2.2.1 r hr
  have hprod : 0 < m.atr_value * cfg.atr_multiplier * r := mul_pos hsld2 hr2
  cases d with
  | long =>
    constructor
    · intro _
      simp only [directionSign]
      linarith
    · intro hds
      cases hds
  | short =>
    constructor
    · intro hds
      cases hds
    · intro _
      simp only [directionSign]
      linarith

/-- Witness for C8 at a concrete LONG input with two reward multiples. -/
theorem spec_C8_witness :
    ∃ plan, compute_position_plan TradeDirection.long ⟨100, 10⟩ ⟨2, 1, [2, 3]⟩
        ⟨1000⟩ = Except.ok plan ∧
      plan.target_prices = [2, 3].map
        (fun r => (100 : ℚ) + directionSign TradeDirection.long *
          plan.stop_loss_distance * r) ∧
      (0 < plan.stop_loss_distance → ∀ p ∈ plan.target_prices,
        (TradeDirection.long = TradeDirection.long → (100 : ℚ) < p) ∧
        (TradeDirection.long = TradeDirection.short → p < (100 : ℚ))) :=
  spec_C8 TradeDirection.long ⟨100, 10⟩ ⟨2, 1, [2, 3]⟩ ⟨1000⟩ (by simp [ValidInput])

/-- Claim C9: the stop-loss price dispatch is an exhaustive match over the
two-variant `TradeDirection` enumeration — every direction value is LONG or
SHORT, each branch applies its own formula, and `buildPlan` computes the
stop-loss price through exactly this dispatch. -/
theorem spec_C9 :
    (∀ d : TradeDirection, d = TradeDirection.long ∨ d = TradeDirection.short) ∧
    (∀ e s : ℚ, stopLossPriceFor TradeDirection.long e s = e - s ∧
      stopLossPriceFor TradeDirection.short e s = e + s) ∧
    (∀ (d : TradeDirection) (m : MarketSnapshot) (cfg : RiskConfig)
      (a : AccountState), (buildPlan d m cfg a).stop_loss_price =
        stopLossPriceFor d m.entry_price (m.atr_value * cfg.atr_multiplier)) := by
  refine ⟨fun d => ?_, fun e s => ⟨rfl, rfl⟩, fun d m cfg a => rfl⟩
  cases d with
  | long => exact Or.inl rfl
  | short => exact Or.inr rfl

/-- Claim C10: for every valid input with positive ATR the recomputed realized
risk multiple equals the configured multiplier exactly, and on no input at all
does `compute_position_plan` return `InternalInvariantViolation` — that branch
is unreachable. -/
theorem spec_C10 (d : TradeDirection) (m : MarketSnapshot) (cfg : RiskConfig)
    (a : AccountState) (h : ValidInput m cfg a) (hatr : 0 < m.atr_value) :
    (∃ plan, compute_position_plan d m cfg a = Except.ok plan ∧
      plan.realized_risk_multiple = some cfg.atr_multiplier) ∧
    (∀ (e : TradeDirection) (n : MarketSnapshot) (c : RiskConfig)
      (b : AccountState), compute_position_plan e n c b ≠
        Except.error ComputeError.InternalInvariantViolation) := by
  refine ⟨⟨buildPlan d m cfg a, compute_position_plan_of_valid d m cfg a h, ?_⟩,
    compute_position_plan_ne_violation⟩
  simp only [buildPlan, if_pos hatr]
  rw [mul_div_cancel_left₀ _ (ne_of_gt hatr)]

/-- Witness for C10 at a concrete positive-ATR input. -/
theorem spec_C10_witness :
    (∃ plan, compute_position_plan TradeDirection.long ⟨100, 10⟩ ⟨2, 1, [2, 3]⟩
        ⟨1000⟩ = Except.ok plan ∧
      plan.realized_risk_multiple = some 2) ∧
    (∀ (e : TradeDirection) (n : MarketSnapshot) (c : RiskConfig)
      (b : AccountState), compute_position_plan e n c b ≠
        Except.error ComputeError.InternalInvariantViolation) :=
  spec_C10 TradeDirection.long ⟨100, 10⟩ ⟨2, 1, [2, 3]⟩ ⟨1000⟩
    (by simp [ValidInput]) (by norm_num)

end RiskCalc
